import Mathlib

/-!
Shallow embedding of the Refract symmetry-generation core:
`src/utils/generateSymmetries.js` and `src/utils/exportImage.js`.

Canvases and `ImageData` objects are modelled as `RasterBuffer`s: a width, a
height, and a total pixel function (only coordinates inside the dimensions are
meaningful).  Canvas drawing is modelled as pure raster arithmetic, except for
the two failure modes of the primitives that the code can actually hit, which
the HTML standard defines: `drawImage` throws `InvalidStateError` when its
source is a canvas with a zero dimension, and `getImageData` throws
`IndexSizeError` when the requested width or height is zero.  Those surface as
`Except` errors.

The pixel-level effect of drawing the source image under the accumulated
rotate/zoom transform (lines 41-86) is performed by the 2D context's sampler, a
drawing primitive outside this repository; it enters the model as an explicit
`Resample` parameter.  No claim below depends on its values.
-/

namespace Refract

/-- An RGBA8 color sample, one byte per channel. -/
structure Color where
  r : ℕ
  g : ℕ
  b : ℕ
  a : ℕ
  deriving DecidableEq

/-- The fixed background fill `#1f2937` (RGB 31, 41, 55, opaque). -/
def bgColor : Color := ⟨31, 41, 55, 255⟩

/-- A canvas / ImageData: width, height, and the pixel grid. -/
structure RasterBuffer where
  width : ℕ
  height : ℕ
  pixel : ℕ → ℕ → Color

/-- Channel `k` of a color, in RGBA order. -/
def Color.channel (c : Color) (k : ℕ) : ℕ :=
  if k = 0 then c.r else if k = 1 then c.g else if k = 2 then c.b else c.a

/-- Byte `i` of the row-major RGBA8 serialization of a buffer. -/
def RasterBuffer.byteAt (buf : RasterBuffer) (i : ℕ) : ℕ :=
  Color.channel (buf.pixel (i / 4 % buf.width) (i / 4 / buf.width)) (i % 4)

/-- The row-major RGBA8 bytes of a buffer, as `ImageData.data` exposes them. -/
def RasterBuffer.bytes (buf : RasterBuffer) : List ℕ :=
  (List.range (buf.height * buf.width * 4)).map buf.byteAt

/-- An encoded image byte stream together with its intrinsic dimensions. -/
structure Blob where
  width : ℕ
  height : ℕ
  data : List ℕ
  deriving DecidableEq

/-- Modelled from the spec: `canvas.toBlob('image/png', 1.0)` produces a lossless,
maximum-quality compressed byte stream (spec 4.5), so the encoder is modelled as
an invertible serialization of the RGBA8 bytes: the byte stream determines the
decoded image exactly. -/
def encodePNG (buf : RasterBuffer) : Blob := ⟨buf.width, buf.height, buf.bytes⟩

/-- Reading one RGBA sample back out of a row-major byte list. -/
def colorFromBytes (data : List ℕ) (w x y : ℕ) : Color :=
  ⟨data.getD ((y * w + x) * 4) 0, data.getD ((y * w + x) * 4 + 1) 0,
   data.getD ((y * w + x) * 4 + 2) 0, data.getD ((y * w + x) * 4 + 3) 0⟩

/-- Modelled from the spec: decoding the lossless byte stream back to a raster
buffer (the inverse of `encodePNG`). -/
def decodePNG (bl : Blob) : RasterBuffer :=
  ⟨bl.width, bl.height, fun x y => colorFromBytes bl.data bl.width x y⟩

/-- Assigning a JS number to `canvas.width` or `canvas.height` goes through the
WebIDL `unsigned long` conversion: truncation to an integer, reduced mod 2^32.
Every dimension this pipeline assigns is nonnegative, where truncation agrees
with `Int.floor`. -/
def canvasDim (q : ℚ) : ℕ := (⌊q⌋ % (2 ^ 32 : ℤ)).toNat

/-- A source rectangle as built at lines 93-126 of generateSymmetries.js:
real-valued coordinates and dimensions, plus the `name` tag the code attaches. -/
structure SourceRect where
  name : String
  x : ℚ
  y : ℚ
  width : ℚ
  height : ℚ
  deriving DecidableEq

/-- Step 1 of createPatternFromSource (lines 152-168): draw the sub-rectangle
`rect` of `sourceCanvas` into a fresh canvas of dimensions
`canvasDim rect.width × canvasDim rect.height`.  At an integral source offset a
1:1 drawImage is an exact pixel copy, which this definition reproduces; at a
fractional offset the drawing primitive performs implementation-defined
smoothing, and the floor-offset value used here is only a placeholder — no
theorem below depends on the extracted content at a fractional offset. -/
def extractQuadrant (sourceCanvas : RasterBuffer) (rect : SourceRect) : RasterBuffer :=
  ⟨canvasDim rect.width, canvasDim rect.height,
   fun i j => sourceCanvas.pixel ((⌊rect.x⌋).toNat + i) ((⌊rect.y⌋).toNat + j)⟩

/-- Step 2 of createPatternFromSource (lines 170-214): the per-quadrant
reorientation.  Index 1 is `translate(w,0); scale(-1,1)`, a horizontal flip;
index 2 a vertical flip; index 3 both; any other index uses the tile as-is. -/
def flipTile (t : RasterBuffer) (sourceIndex : ℕ) : RasterBuffer :=
  if sourceIndex = 1 then ⟨t.width, t.height, fun i j => t.pixel (t.width - 1 - i) j⟩
  else if sourceIndex = 2 then ⟨t.width, t.height, fun i j => t.pixel i (t.height - 1 - j)⟩
  else if sourceIndex = 3 then
    ⟨t.width, t.height, fun i j => t.pixel (t.width - 1 - i) (t.height - 1 - j)⟩
  else t

/-- The orientation normalizer of spec 4.3: extraction followed by the
per-index flip (steps 1-2 of createPatternFromSource). -/
def normalizeQuadrant (sourceCanvas : RasterBuffer) (rect : SourceRect)
    (sourceIndex : ℕ) : RasterBuffer :=
  flipTile (extractQuadrant sourceCanvas rect) sourceIndex

/-- One `drawImage(tile, 0, 0)` over `base`: pixels inside the tile footprint
(clipped to the canvas) are replaced. -/
def drawTileTL (base tile : RasterBuffer) : RasterBuffer :=
  ⟨base.width, base.height, fun x y =>
    if x < tile.width ∧ y < tile.height ∧ x < base.width ∧ y < base.height then
      tile.pixel x y
    else base.pixel x y⟩

/-- The horizontally mirrored placement `translate(W,0); scale(-1,1);
drawImage(tile,0,0)`: its right edge aligns with the canvas right edge, and
output (x, y) shows tile (W-1-x, y). -/
def drawTileTR (base tile : RasterBuffer) : RasterBuffer :=
  ⟨base.width, base.height, fun x y =>
    if base.width ≤ x + tile.width ∧ x < base.width ∧ y < tile.height ∧ y < base.height then
      tile.pixel (base.width - 1 - x) y
    else base.pixel x y⟩

/-- The vertically mirrored placement `translate(0,H); scale(1,-1);
drawImage(tile,0,0)`: its bottom edge aligns with the canvas bottom edge. -/
def drawTileBL (base tile : RasterBuffer) : RasterBuffer :=
  ⟨base.width, base.height, fun x y =>
    if x < tile.width ∧ x < base.width ∧ base.height ≤ y + tile.height ∧ y < base.height then
      tile.pixel x (base.height - 1 - y)
    else base.pixel x y⟩

/-- The doubly mirrored placement `translate(W,H); scale(-1,-1);
drawImage(tile,0,0)`: anchored at the canvas bottom-right corner. -/
def drawTileBR (base tile : RasterBuffer) : RasterBuffer :=
  ⟨base.width, base.height, fun x y =>
    if base.width ≤ x + tile.width ∧ x < base.width ∧ base.height ≤ y + tile.height ∧ y < base.height then
      tile.pixel (base.width - 1 - x) (base.height - 1 - y)
    else base.pixel x y⟩

/-- A canvas freshly filled with the background color (`fillRect` after setting
`fillStyle = '#1f2937'`). -/
def fillRect (w h : ℕ) : RasterBuffer := ⟨w, h, fun _ _ => bgColor⟩

/-- Steps 3-4 of createPatternFromSource (lines 216-249), the mirror compositor
of spec 4.4: background fill, then the four placements in the fixed z-order
identity, horizontal mirror, vertical mirror, both mirrors. -/
def composePattern (tile : RasterBuffer) (imgWidth imgHeight : ℕ) : RasterBuffer :=
  drawTileBR (drawTileBL (drawTileTR (drawTileTL (fillRect imgWidth imgHeight) tile) tile) tile) tile

/-- The DOM exceptions the canvas primitives used by the pipeline raise, per the
HTML standard: `drawImage` throws `InvalidStateError` when its source is a
canvas with a zero dimension; `getImageData` throws `IndexSizeError` when the
requested width or height is zero. -/
inductive DOMErr where
  | invalidState
  | indexSize
  deriving DecidableEq

/-- Lines 150-252 of generateSymmetries.js.  The checks reproduce, in program
order, the conditions under which the canvas calls throw: step 1 draws
`sourceCanvas` (throws iff it has a zero dimension), the flip branches draw
`tempCanvas` (throws iff the tile has a zero dimension, only reached for
index 1, 2, 3), step 4 draws `sourceTileCanvas` four times, and the final
`getImageData(0, 0, imgWidth, imgHeight)` throws iff a requested dimension is
zero. -/
def createPatternFromSource (sourceCanvas : RasterBuffer) (sourceRect : SourceRect)
    (imgWidth imgHeight sourceIndex : ℕ) : Except DOMErr RasterBuffer :=
  if sourceCanvas.width = 0 ∨ sourceCanvas.height = 0 then .error .invalidState
  else
    let tempTile := extractQuadrant sourceCanvas sourceRect
    if sourceIndex ≠ 0 ∧ (tempTile.width = 0 ∨ tempTile.height = 0) then .error .invalidState
    else
      let sourceTileCanvas := flipTile tempTile sourceIndex
      if sourceTileCanvas.width = 0 ∨ sourceTileCanvas.height = 0 then .error .invalidState
      else if imgWidth = 0 ∨ imgHeight = 0 then .error .indexSize
      else .ok (composePattern sourceTileCanvas imgWidth imgHeight)

/-- The decoded source image: the core only ever reads its dimensions; its pixel
content enters the model through `Resample`. -/
structure Image where
  width : ℕ
  height : ℕ
  deriving DecidableEq

/-- The normalized midpoint the caller owns. -/
structure Midpoint where
  x : ℚ
  y : ℚ
  deriving DecidableEq

/-- The quality-tier argument value for previews. -/
def qualityPreview : String := "preview"

/-- The quality-tier argument value for full resolution. -/
def qualityHighRes : String := "high-res"

/-- Lines 19-39 of generateSymmetries.js: the working (canonical) dimensions.
`Math.round` is round-half-up on the nonnegative values that occur, matching
Mathlib `round`. -/
def workingDims (originalWidth originalHeight : ℕ) (quality : String) : ℕ × ℕ :=
  if quality = qualityPreview then
    if 1024 < originalWidth ∨ 1024 < originalHeight then
      let scaleFactor : ℚ :=
        if originalHeight < originalWidth then 1024 / originalWidth else 1024 / originalHeight
      ((round ((originalWidth : ℚ) * scaleFactor)).toNat,
       (round ((originalHeight : ℚ) * scaleFactor)).toNat)
    else (originalWidth, originalHeight)
  else (originalWidth, originalHeight)

/-- Lines 88-126: the quadrant partitioner, in the fixed order topLeft,
topRight, bottomLeft, bottomRight. -/
def sourceRectangles (imgWidth imgHeight : ℕ) (midpoint : Midpoint) : List SourceRect :=
  let midX : ℚ := midpoint.x * imgWidth
  let midY : ℚ := midpoint.y * imgHeight
  [⟨r"topLeft", 0, 0, midX, midY⟩,
   ⟨r"topRight", midX, 0, imgWidth - midX, midY⟩,
   ⟨r"bottomLeft", 0, midY, midX, imgHeight - midY⟩,
   ⟨r"bottomRight", midX, midY, imgWidth - midX, imgHeight - midY⟩]

/-- The pixel content the preprocessed canvas holds after lines 41-86:
background fill, then the source image drawn centered under the accumulated
rotate/zoom transform.  `resample img rotation zoom imgWidth imgHeight x y` is
the resulting color at (x, y); the sampler itself is the drawing primitive's. -/
abbrev Resample : Type :=
  Image → ℚ → ℚ → ℕ → ℕ → ℕ → ℕ → Color

/-- The preprocessed canvas of spec 4.1 (canonical buffer). -/
def preprocessCanvas (resample : Resample) (img : Image) (rotation zoom : ℚ)
    (imgWidth imgHeight : ℕ) : RasterBuffer :=
  ⟨imgWidth, imgHeight, fun x y => resample img rotation zoom imgWidth imgHeight x y⟩

/-- Lines 12-138: the full pipeline.  A DOM exception raised by a canvas
primitive propagates to the caller (the function has no try/catch). -/
def generateSymmetries (resample : Resample) (imageElement : Option Image)
    (midpoint : Option Midpoint) (rotation zoom : ℚ) (quality : String) :
    Except DOMErr (List RasterBuffer) :=
  match imageElement, midpoint with
  | some img, some mp =>
    let dims := workingDims img.width img.height quality
    let canvas := preprocessCanvas resample img rotation zoom dims.1 dims.2
    (sourceRectangles dims.1 dims.2 mp).enum.mapM fun p =>
      createPatternFromSource canvas p.2 dims.1 dims.2 p.1
  | _, _ => .ok []

/-- The failure conditions of exportHighResImage: a propagated DOM exception,
the invalid-argument throw at line 15, the generate-failure throw at line 25,
and the null-blob rejection at line 53. -/
inductive ExportErr where
  | dom (e : DOMErr)
  | invalidParams
  | generateFailed
  | encodeFailed
  deriving DecidableEq

/-- JS array indexing `patterns[q]` for a JS number `q`: an element only at an
integral index inside the array, `undefined` (none) otherwise. -/
def jsIndex (l : List RasterBuffer) (q : ℚ) : Option RasterBuffer :=
  if q.den = 1 ∧ 0 ≤ q.num then l[q.num.toNat]? else none

/-- Line 44, `ctx.drawImage(tempCanvas, 0, 0, w, h)`: the pattern scaled to
(w, h).  Sampling is modelled at the nearest-lower source coordinate; the only
use scales 1:1, where this is the exact pixel copy. -/
def drawScaled (p : RasterBuffer) (w h : ℕ) : RasterBuffer :=
  ⟨w, h, fun x y => p.pixel (x * p.width / w) (y * p.height / h)⟩

/-- exportImage.js lines 13-60.  `toBlob('image/png', 1.0)` is modelled as the
lossless `encodePNG`; it yields a blob for every canvas here, so the
`encodeFailed` branch is never taken. -/
def exportHighResImage (resample : Resample) (imageElement : Option Image)
    (midpoint : Option Midpoint) (rotation zoom : ℚ) (quadrantIndex : Option ℚ) :
    Except ExportErr Blob :=
  match imageElement, quadrantIndex with
  | none, _ => .error .invalidParams
  | some _, none => .error .invalidParams
  | some img, some q =>
    if q < 0 ∨ 3 < q then .error .invalidParams
    else
      match generateSymmetries resample (some img) midpoint rotation zoom qualityHighRes with
      | .error e => .error (.dom e)
      | .ok patterns =>
        match jsIndex patterns q with
        | none => .error .generateFailed
        | some pattern =>
          if pattern.width = 0 ∨ pattern.height = 0 then .error (.dom .invalidState)
          else .ok (encodePNG (drawScaled pattern img.width img.height))

/-- A concrete resample function used by closed witnesses: all background. -/
def constResample : Resample := fun _ _ _ _ _ _ _ => bgColor

/-- An integer rectangle given by its rounded edge coordinates, per 4.2's note:
round each edge coordinate once, derive widths and heights as differences of
the rounded edges. -/
structure IntRect where
  x0 : ℕ
  y0 : ℕ
  x1 : ℕ
  y1 : ℕ
  deriving DecidableEq

/-- The rounded-edge quantization 4.2's note prescribes for a real rectangle. -/
def roundEdges (r : SourceRect) : IntRect :=
  ⟨(round r.x).toNat, (round r.y).toNat,
   (round (r.x + r.width)).toNat, (round (r.y + r.height)).toNat⟩

/-- The pixel count of a rounded rectangle. -/
def IntRect.area (e : IntRect) : ℕ := (e.x1 - e.x0) * (e.y1 - e.y0)

/-- Membership of an integer pixel in a rounded rectangle. -/
def IntRect.memPix (e : IntRect) (p : ℕ × ℕ) : Prop :=
  e.x0 ≤ p.1 ∧ p.1 < e.x1 ∧ e.y0 ≤ p.2 ∧ p.2 < e.y1

theorem round_mono_q {a b : ℚ} (h : a ≤ b) : round a ≤ round b := by
  rw [round_eq, round_eq]
  exact Int.floor_mono (by linarith)

theorem round_toNat_le {m : ℚ} {W : ℕ} (h : m ≤ (W : ℚ)) : (round m).toNat ≤ W := by
  refine Int.toNat_le.mpr ?_
  have := round_mono_q h
  rwa [round_natCast] at this

/-- The rounded-edge quantization of the four partition rectangles, with the
midpoint edges rounded to `rx`, `ry`: exact tiling of `W × H`. -/
theorem intRect_tiling (W H rx ry : ℕ) (hx : rx ≤ W) (hy : ry ≤ H) :
    (IntRect.area ⟨0, 0, rx, ry⟩ + (IntRect.area ⟨rx, 0, W, ry⟩ +
      (IntRect.area ⟨0, ry, rx, H⟩ + (IntRect.area ⟨rx, ry, W, H⟩ + 0))) = W * H) ∧
    (∀ p : ℕ × ℕ, ¬(IntRect.memPix ⟨0, 0, rx, ry⟩ p ∧ IntRect.memPix ⟨rx, 0, W, ry⟩ p)) ∧
    (∀ p : ℕ × ℕ, ¬(IntRect.memPix ⟨0, 0, rx, ry⟩ p ∧ IntRect.memPix ⟨0, ry, rx, H⟩ p)) ∧
    (∀ p : ℕ × ℕ, ¬(IntRect.memPix ⟨0, 0, rx, ry⟩ p ∧ IntRect.memPix ⟨rx, ry, W, H⟩ p)) ∧
    (∀ p : ℕ × ℕ, ¬(IntRect.memPix ⟨rx, 0, W, ry⟩ p ∧ IntRect.memPix ⟨0, ry, rx, H⟩ p)) ∧
    (∀ p : ℕ × ℕ, ¬(IntRect.memPix ⟨rx, 0, W, ry⟩ p ∧ IntRect.memPix ⟨rx, ry, W, H⟩ p)) ∧
    (∀ p : ℕ × ℕ, ¬(IntRect.memPix ⟨0, ry, rx, H⟩ p ∧ IntRect.memPix ⟨rx, ry, W, H⟩ p)) := by
  refine ⟨?_, ?_, ?_, ?_, ?_, ?_, ?_⟩
  · obtain ⟨a, ha⟩ := Nat.le.dest hx
    obtain ⟨b, hb⟩ := Nat.le.dest hy
    subst ha hb
    simp only [IntRect.area, Nat.sub_zero, Nat.add_sub_cancel_left]
    ring
  all_goals intro p hp
  all_goals simp only [IntRect.memPix] at hp
  all_goals omega

/-- C1: for every buffer size and interior midpoint, the partitioner computes
midX = x·W, midY = y·H and returns, in order TopLeft, TopRight, BottomLeft,
BottomRight, the rectangles (0,0,midX,midY), (midX,0,W−midX,midY),
(0,midY,midX,H−midY), (midX,midY,W−midX,H−midY); after rounding each edge
coordinate once and deriving widths as differences of rounded edges, the four
rectangles tile the buffer exactly: areas sum to W·H and the pixel sets are
pairwise disjoint. -/
theorem partition_rounded_tiling (W H : ℕ) (mx my : ℚ)
    (hx0 : 0 < mx) (hx1 : mx < 1) (hy0 : 0 < my) (hy1 : my < 1) :
    sourceRectangles W H ⟨mx, my⟩ =
      [⟨r"topLeft", 0, 0, mx * W, my * H⟩,
       ⟨r"topRight", mx * W, 0, W - mx * W, my * H⟩,
       ⟨r"bottomLeft", 0, my * H, mx * W, H - my * H⟩,
       ⟨r"bottomRight", mx * W, my * H, W - mx * W, H - my * H⟩] ∧
    ((sourceRectangles W H ⟨mx, my⟩).map fun r => (roundEdges r).area).sum = W * H ∧
    (sourceRectangles W H ⟨mx, my⟩).Pairwise
      (fun r s => ∀ p : ℕ × ℕ, ¬((roundEdges r).memPix p ∧ (roundEdges s).memPix p)) := by
  have hxW : (0 : ℚ) ≤ mx * W := mul_nonneg hx0.le (Nat.cast_nonneg W)
  have hxW2 : mx * (W : ℚ) ≤ W := by
    have := mul_le_mul_of_nonneg_right hx1.le (Nat.cast_nonneg (α := ℚ) W)
    simpa using this
  have hyH : (0 : ℚ) ≤ my * H := mul_nonneg hy0.le (Nat.cast_nonneg H)
  have hyH2 : my * (H : ℚ) ≤ H := by
    have := mul_le_mul_of_nonneg_right hy1.le (Nat.cast_nonneg (α := ℚ) H)
    simpa using this
  have hrx : (round (mx * (W : ℚ))).toNat ≤ W := round_toNat_le hxW2
  have hry : (round (my * (H : ℚ))).toNat ≤ H := round_toNat_le hyH2
  have e0 : (round (0 : ℚ)).toNat = 0 := by rw [round_zero]; rfl
  have eWx : (round (mx * (W : ℚ) + ((W : ℚ) - mx * W))).toNat = W := by
    rw [show mx * (W : ℚ) + ((W : ℚ) - mx * W) = ((W : ℕ) : ℚ) by ring, round_natCast,
      Int.toNat_natCast]
  have eHy : (round (my * (H : ℚ) + ((H : ℚ) - my * H))).toNat = H := by
    rw [show my * (H : ℚ) + ((H : ℚ) - my * H) = ((H : ℕ) : ℚ) by ring, round_natCast,
      Int.toNat_natCast]
  have hTL : roundEdges ⟨r"topLeft", 0, 0, mx * W, my * H⟩ =
      ⟨0, 0, (round (mx * (W : ℚ))).toNat, (round (my * (H : ℚ))).toNat⟩ := by
    simp [roundEdges, e0]
  have hTR : roundEdges ⟨r"topRight", mx * W, 0, (W : ℚ) - mx * W, my * H⟩ =
      ⟨(round (mx * (W : ℚ))).toNat, 0, W, (round (my * (H : ℚ))).toNat⟩ := by
    simp [roundEdges, e0, eWx]
  have hBL : roundEdges ⟨r"bottomLeft", 0, my * H, mx * W, (H : ℚ) - my * H⟩ =
      ⟨0, (round (my * (H : ℚ))).toNat, (round (mx * (W : ℚ))).toNat, H⟩ := by
    simp [roundEdges, e0, eHy]
  have hBR : roundEdges ⟨r"bottomRight", mx * W, my * H, (W : ℚ) - mx * W, (H : ℚ) - my * H⟩ =
      ⟨(round (mx * (W : ℚ))).toNat, (round (my * (H : ℚ))).toNat, W, H⟩ := by
    simp [roundEdges, eWx, eHy]
  obtain ⟨harea, d1, d2, d3, d4, d5, d6⟩ :=
    intRect_tiling W H (round (mx * (W : ℚ))).toNat (round (my * (H : ℚ))).toNat hrx hry
  refine ⟨rfl, ?_, ?_⟩
  · simp only [sourceRectangles, List.map_cons, List.map_nil, List.sum_cons, List.sum_nil,
      hTL, hTR, hBL, hBR]
    exact harea
  · simp only [sourceRectangles, List.pairwise_cons, List.mem_cons, List.not_mem_nil,
      List.mem_singleton, List.Pairwise.nil]
    refine ⟨?_, ?_, ?_, ?_⟩
    · intro s hs
      rcases hs with rfl | rfl | rfl | h
      · rw [hTL, hTR]; exact d1
      · rw [hTL, hBL]; exact d2
      · rw [hTL, hBR]; exact d3
      · cases h
    · intro s hs
      rcases hs with rfl | rfl | h
      · rw [hTR, hBL]; exact d4
      · rw [hTR, hBR]; exact d5
      · cases h
    · intro s hs
      rcases hs with rfl | h
      · rw [hBL, hBR]; exact d6
      · cases h
    · exact ⟨fun s hs => hs.elim, trivial⟩

/-- Witness for C1 at a 10×10 buffer and midpoint (1/3, 1/3). -/
theorem partition_rounded_tiling_witness :
    ((0 : ℚ) < 1/3 ∧ (1/3 : ℚ) < 1) ∧
    (((sourceRectangles 10 10 ⟨1/3, 1/3⟩).map fun r => (roundEdges r).area).sum = 10 * 10 ∧
      (sourceRectangles 10 10 ⟨1/3, 1/3⟩).Pairwise
        (fun r s => ∀ p : ℕ × ℕ, ¬((roundEdges r).memPix p ∧ (roundEdges s).memPix p))) :=
  ⟨⟨by norm_num, by norm_num⟩,
    (partition_rounded_tiling 10 10 (1/3) (1/3) (by norm_num) (by norm_num) (by norm_num)
      (by norm_num)).2⟩

theorem workingDims_of_ne {q : String} (hq : q ≠ qualityPreview) (ow oh : ℕ) :
    workingDims ow oh q = (ow, oh) := by
  simp [workingDims, hq]

theorem createPattern_ok_dims {c : RasterBuffer} {r : SourceRect} {W H i : ℕ}
    {b : RasterBuffer} (h : createPatternFromSource c r W H i = .ok b) :
    b.width = W ∧ b.height = H := by
  simp only [createPatternFromSource] at h
  by_cases h1 : c.width = 0 ∨ c.height = 0
  · rw [if_pos h1] at h; cases h
  · rw [if_neg h1] at h
    by_cases h2 : i ≠ 0 ∧ ((extractQuadrant c r).width = 0 ∨ (extractQuadrant c r).height = 0)
    · rw [if_pos h2] at h; cases h
    · rw [if_neg h2] at h
      by_cases h3 : (flipTile (extractQuadrant c r) i).width = 0 ∨
          (flipTile (extractQuadrant c r) i).height = 0
      · rw [if_pos h3] at h; cases h
      · rw [if_neg h3] at h
        by_cases h4 : W = 0 ∨ H = 0
        · rw [if_pos h4] at h; cases h
        · rw [if_neg h4] at h
          obtain rfl := (Except.ok.injEq _ _).mp h.symm
          exact ⟨rfl, rfl⟩

theorem exceptMapM_mem {α β ε : Type} (f : α → Except ε β) :
    ∀ (l : List α) (out : List β), l.mapM f = .ok out → ∀ b ∈ out, ∃ a ∈ l, f a = .ok b := by
  intro l
  induction l with
  | nil =>
    intro out h b hb
    simp only [List.mapM_nil, pure, Except.pure, Except.ok.injEq] at h
    subst h
    cases hb
  | cons a as ih =>
    intro out h b hb
    rw [List.mapM_cons] at h
    cases hfa : f a with
    | error e =>
      rw [hfa] at h
      simp only [bind, Except.bind] at h
      cases h
    | ok b0 =>
      rw [hfa] at h
      simp only [bind, Except.bind] at h
      cases hrest : as.mapM f with
      | error e =>
        rw [hrest] at h
        cases h
      | ok bs =>
        rw [hrest] at h
        simp only [pure, Except.pure, Except.ok.injEq] at h
        subst h
        rcases List.mem_cons.mp hb with rfl | hmem
        · exact ⟨a, List.mem_cons_self a as, hfa⟩
        · obtain ⟨x, hx, hfx⟩ := ih bs hrest b hmem
          exact ⟨x, List.mem_cons_of_mem a hx, hfx⟩

theorem generate_ok_dims {resample : Resample} {img : Image} {mp : Midpoint}
    {rot zoom : ℚ} {q : String} {pats : List RasterBuffer}
    (h : generateSymmetries resample (some img) (some mp) rot zoom q = .ok pats) :
    ∀ b ∈ pats, b.width = (workingDims img.width img.height q).1 ∧
      b.height = (workingDims img.width img.height q).2 := by
  intro b hb
  simp only [generateSymmetries] at h
  obtain ⟨p, _, hok⟩ := exceptMapM_mem _ _ _ h b hb
  exact createPattern_ok_dims hok

/-- C10: for every quality argument other than the exact string `preview`, the
working dimensions equal the original dimensions (no downscaling), so every
pattern an `ok` run returns has the original image's dimensions: an
unrecognized tier behaves as the HighRes tier. -/
theorem unknown_quality_behaves_highres (q : String) (hq : q ≠ qualityPreview) (ow oh : ℕ) :
    workingDims ow oh q = (ow, oh) ∧
    (∀ (resample : Resample) (img : Image) (mp : Midpoint) (rot zoom : ℚ)
      (pats : List RasterBuffer),
      generateSymmetries resample (some img) (some mp) rot zoom q = .ok pats →
      ∀ b ∈ pats, b.width = img.width ∧ b.height = img.height) := by
  refine ⟨workingDims_of_ne hq ow oh, ?_⟩
  intro resample img mp rot zoom pats h b hb
  have := generate_ok_dims h b hb
  rwa [workingDims_of_ne hq] at this

/-- Witness for C10 at the value `high-res` and a 5×7 image. -/
theorem unknown_quality_behaves_highres_witness :
    qualityHighRes ≠ qualityPreview ∧
    (workingDims 5 7 qualityHighRes = (5, 7) ∧
    (∀ (resample : Resample) (img : Image) (mp : Midpoint) (rot zoom : ℚ)
      (pats : List RasterBuffer),
      generateSymmetries resample (some img) (some mp) rot zoom qualityHighRes = .ok pats →
      ∀ b ∈ pats, b.width = img.width ∧ b.height = img.height)) :=
  ⟨by decide, unknown_quality_behaves_highres qualityHighRes (by decide) 5 7⟩

/-- C6: the full preview pipeline is a pure function of its inputs: two
invocations with identical inputs return identical results, in particular
byte-identical buffer lists.  (The preprocessed canvas sampler `resample`
stands for the deterministic drawing primitive; the source allocates only local
canvases and has no other effects.) -/
theorem generate_deterministic (resample : Resample) (img : Option Image)
    (mp : Option Midpoint) (rot zoom : ℚ) (q : String) :
    generateSymmetries resample img mp rot zoom q =
      generateSymmetries resample img mp rot zoom q ∧
    (generateSymmetries resample img mp rot zoom q).map (fun l => l.map RasterBuffer.bytes) =
      (generateSymmetries resample img mp rot zoom q).map (fun l => l.map RasterBuffer.bytes) :=
  ⟨rfl, rfl⟩

theorem round_toNat_eq (q : ℚ) (n : ℕ) (h1 : (n : ℚ) ≤ q + 1/2) (h2 : q + 1/2 < n + 1) :
    (round q).toNat = n := by
  have hfl : ⌊q + 1/2⌋ = (n : ℤ) :=
    Int.floor_eq_iff.mpr ⟨by push_cast; exact h1, by push_cast; exact h2⟩
  rw [round_eq, hfl, Int.toNat_natCast]

theorem round_mul_div_cancel {w h : ℕ} (hle : h ≤ w) (hbig : 1024 < w) :
    (round ((w : ℚ) * (1024 / (w : ℚ)))).toNat = 1024 ∧
    (round ((h : ℚ) * (1024 / (w : ℚ)))).toNat ≤ 1024 := by
  have hw0 : (w : ℚ) ≠ 0 := Nat.cast_ne_zero.mpr (by omega)
  have hww : (w : ℚ) * (1024 / w) = ((1024 : ℕ) : ℚ) := by
    push_cast
    field_simp
  have hcast : (h : ℚ) ≤ (w : ℚ) := by exact_mod_cast hle
  constructor
  · rw [hww, round_natCast, Int.toNat_natCast]
  · refine round_toNat_le ?_
    calc (h : ℚ) * (1024 / w) ≤ (w : ℚ) * (1024 / w) :=
          mul_le_mul_of_nonneg_right hcast (by positivity)
      _ = ((1024 : ℕ) : ℚ) := hww

/-- C4: under the Preview tier, if the longer original side exceeds 1024 both
dimensions are scaled by 1024 / max(ow, oh) and each rounded independently to
the nearest integer, otherwise the working dimensions are the original ones; a
4000×2000 image yields exactly 1024×512, and neither working dimension ever
exceeds 1024. -/
theorem preview_working_dims (ow oh : ℕ) :
    (1024 < max ow oh →
      workingDims ow oh qualityPreview =
        ((round ((ow : ℚ) * (1024 / ((max ow oh : ℕ) : ℚ)))).toNat,
         (round ((oh : ℚ) * (1024 / ((max ow oh : ℕ) : ℚ)))).toNat)) ∧
    (max ow oh ≤ 1024 → workingDims ow oh qualityPreview = (ow, oh)) ∧
    workingDims 4000 2000 qualityPreview = (1024, 512) ∧
    (workingDims ow oh qualityPreview).1 ≤ 1024 ∧
    (workingDims ow oh qualityPreview).2 ≤ 1024 := by
  have hA : 1024 < max ow oh →
      workingDims ow oh qualityPreview =
        ((round ((ow : ℚ) * (1024 / ((max ow oh : ℕ) : ℚ)))).toNat,
         (round ((oh : ℚ) * (1024 / ((max ow oh : ℕ) : ℚ)))).toNat) := by
    intro h
    have hc : 1024 < ow ∨ 1024 < oh := lt_max_iff.mp h
    by_cases hcmp : oh < ow
    · have hm : max ow oh = ow := Nat.max_eq_left hcmp.le
      rw [hm]
      simp [workingDims, hc, hcmp]
    · have hm : max ow oh = oh := Nat.max_eq_right (Nat.le_of_not_lt hcmp)
      rw [hm]
      simp [workingDims, hc, hcmp]
  have hB : max ow oh ≤ 1024 → workingDims ow oh qualityPreview = (ow, oh) := by
    intro h
    have h1 : ow ≤ 1024 := le_trans (le_max_left ow oh) h
    have h2 : oh ≤ 1024 := le_trans (le_max_right ow oh) h
    have h3 : ¬(1024 < ow ∨ 1024 < oh) := by omega
    simp [workingDims, h3]
  have hD : (workingDims ow oh qualityPreview).1 ≤ 1024 ∧
      (workingDims ow oh qualityPreview).2 ≤ 1024 := by
    by_cases hc : 1024 < ow ∨ 1024 < oh
    · by_cases hcmp : oh < ow
      · have h2 := round_mul_div_cancel hcmp.le (by omega)
        simp only [workingDims, if_pos rfl, if_pos hc, if_pos hcmp]
        exact ⟨le_of_eq h2.1, h2.2⟩
      · have hle : ow ≤ oh := Nat.le_of_not_lt hcmp
        have h2 := round_mul_div_cancel hle (by omega)
        simp only [workingDims, if_pos rfl, if_pos hc, if_neg hcmp]
        exact ⟨h2.2, le_of_eq h2.1⟩
    · have h1 : ¬ 1024 < ow := fun hh => hc (Or.inl hh)
      have h2 : ¬ 1024 < oh := fun hh => hc (Or.inr hh)
      simp [workingDims, hc]
      omega
  refine ⟨hA, hB, ?_, hD.1, hD.2⟩
  have e1 : (round ((4000 : ℚ) * (1024 / (4000 : ℚ)))).toNat = 1024 :=
    round_toNat_eq _ _ (by norm_num) (by norm_num)
  have e2 : (round ((2000 : ℚ) * (1024 / (4000 : ℚ)))).toNat = 512 :=
    round_toNat_eq _ _ (by norm_num) (by norm_num)
  simp [workingDims, Nat.cast_ofNat, e1, e2]

/-- Witness for C4 at a 4000×2000 original image. -/
theorem preview_working_dims_witness :
    1024 < max 4000 2000 ∧
    workingDims 4000 2000 qualityPreview =
      ((round (((4000 : ℕ) : ℚ) * (1024 / ((max 4000 2000 : ℕ) : ℚ)))).toNat,
       (round (((2000 : ℕ) : ℚ) * (1024 / ((max 4000 2000 : ℕ) : ℚ)))).toNat) :=
  ⟨by decide, (preview_working_dims 4000 2000).1 (by decide)⟩

/-- C2: whenever createPatternFromSource returns a buffer, its dimensions are the
canonical buffer dimensions passed in (never the seed tile's); and for a proper
seed tile whose top-left pixel is marked, the composite shows that pixel at the
four output corners: (0,0), (W−1,0), (0,H−1), (W−1,H−1). -/
theorem compose_dims_and_marker :
    (∀ (c : RasterBuffer) (r : SourceRect) (W H i : ℕ) (b : RasterBuffer),
      createPatternFromSource c r W H i = .ok b → b.width = W ∧ b.height = H) ∧
    (∀ (tile : RasterBuffer) (W H : ℕ),
      0 < tile.width → tile.width < W → 0 < tile.height → tile.height < H →
      (composePattern tile W H).width = W ∧ (composePattern tile W H).height = H ∧
      (composePattern tile W H).pixel 0 0 = tile.pixel 0 0 ∧
      (composePattern tile W H).pixel (W - 1) 0 = tile.pixel 0 0 ∧
      (composePattern tile W H).pixel 0 (H - 1) = tile.pixel 0 0 ∧
      (composePattern tile W H).pixel (W - 1) (H - 1) = tile.pixel 0 0) := by
  refine ⟨fun c r W H i b h => createPattern_ok_dims h, ?_⟩
  intro tile W H hw hwW hh hhH
  refine ⟨rfl, rfl, ?_, ?_, ?_, ?_⟩ <;>
    · simp only [composePattern, drawTileBR, drawTileBL, drawTileTR, drawTileTL, fillRect]
      split_ifs <;> first | (exfalso; omega) | simp

/-- Witness for C2: a 1×1 tile composited onto a 2×2 canvas. -/
theorem compose_dims_and_marker_witness :
    (0 < (fillRect 1 1).width ∧ (fillRect 1 1).width < 2 ∧
     0 < (fillRect 1 1).height ∧ (fillRect 1 1).height < 2) ∧
    ((composePattern (fillRect 1 1) 2 2).width = 2 ∧
     (composePattern (fillRect 1 1) 2 2).height = 2 ∧
     (composePattern (fillRect 1 1) 2 2).pixel 0 0 = (fillRect 1 1).pixel 0 0 ∧
     (composePattern (fillRect 1 1) 2 2).pixel (2 - 1) 0 = (fillRect 1 1).pixel 0 0 ∧
     (composePattern (fillRect 1 1) 2 2).pixel 0 (2 - 1) = (fillRect 1 1).pixel 0 0 ∧
     (composePattern (fillRect 1 1) 2 2).pixel (2 - 1) (2 - 1) = (fillRect 1 1).pixel 0 0) :=
  ⟨⟨by decide, by decide, by decide, by decide⟩,
   compose_dims_and_marker.2 (fillRect 1 1) 2 2 (by decide) (by decide) (by decide) (by decide)⟩

theorem createPattern_zero_canvas {c : RasterBuffer} {r : SourceRect} {W H i : ℕ}
    (hc : c.width = 0 ∨ c.height = 0) :
    createPatternFromSource c r W H i = .error .invalidState := by
  simp only [createPatternFromSource]
  rw [if_pos hc]

theorem createPattern_zero_tile_idx0 {c : RasterBuffer} {r : SourceRect} {W H : ℕ}
    (hc : ¬(c.width = 0 ∨ c.height = 0)) (hz : canvasDim r.width = 0) :
    createPatternFromSource c r W H 0 = .error .invalidState := by
  simp only [createPatternFromSource]
  rw [if_neg hc, if_neg (by simp), if_pos]
  left
  simpa [flipTile, extractQuadrant] using hz

theorem mapM_cons_error {α β ε : Type} (f : α → Except ε β) (a : α) (as : List α) (e : ε)
    (h : f a = .error e) : (a :: as).mapM f = .error e := by
  rw [List.mapM_cons, h]
  rfl

/-- C8 evaluation: an absent image or midpoint yields the empty array without
failing, but a zero-sized image (not caught by the truthiness guard) reaches
createPatternFromSource with a zero-dimension preprocessed canvas, whose
drawImage call throws InvalidStateError: the pipeline crashes instead of
returning degenerate empty buffers. -/
theorem empty_input_behavior :
    (∀ (resample : Resample) (mp : Option Midpoint) (rot zoom : ℚ) (q : String),
      generateSymmetries resample none mp rot zoom q = .ok []) ∧
    (∀ (resample : Resample) (img : Image) (rot zoom : ℚ) (q : String),
      generateSymmetries resample (some img) none rot zoom q = .ok []) ∧
    (∀ (resample : Resample) (rot zoom : ℚ) (q : String),
      generateSymmetries resample (some ⟨0, 0⟩) (some ⟨1/2, 1/2⟩) rot zoom q =
        .error .invalidState) := by
  refine ⟨fun resample mp rot zoom q => ?_, fun resample img rot zoom q => rfl,
    fun resample rot zoom q => ?_⟩
  · cases mp <;> rfl
  · have hwd : workingDims 0 0 q = (0, 0) := by
      by_cases hq : q = qualityPreview
      · simp [workingDims, hq]
      · simp [workingDims, hq]
    simp only [generateSymmetries, hwd]
    simp only [sourceRectangles, List.enum, List.enumFrom]
    exact mapM_cons_error _ _ _ _ (createPattern_zero_canvas (Or.inl rfl))

theorem generate_deg0_error (resample : Resample) (rot zoom : ℚ) (q : String) :
    generateSymmetries resample (some ⟨4, 4⟩) (some ⟨0, 1/2⟩) rot zoom q =
      .error .invalidState := by
  have hwd : workingDims 4 4 q = (4, 4) := by
    by_cases hq : q = qualityPreview
    · simp [workingDims, hq]
    · simp [workingDims, hq]
  have hz : canvasDim ((0 : ℚ) * (4 : ℕ)) = 0 := by
    norm_num [canvasDim]
  simp only [generateSymmetries, hwd]
  simp only [sourceRectangles, List.enum, List.enumFrom]
  exact mapM_cons_error _ _ _ _ (createPattern_zero_tile_idx0 (by simp [preprocessCanvas]) hz)

/-- C9 evaluation: midpoint {x:0, y:1/2} makes the partitioner return a
zero-width topLeft rect and a full-width topRight rect, but the pipeline then
throws InvalidStateError (the compositor draws a zero-width tile canvas)
instead of producing a background-filled pattern. -/
theorem degenerate_midpoint_crashes :
    (∀ W H : ℕ, (sourceRectangles W H ⟨0, 1/2⟩).map SourceRect.width =
      [0, (W : ℚ), 0, (W : ℚ)]) ∧
    (∀ (resample : Resample) (rot zoom : ℚ) (q : String),
      generateSymmetries resample (some ⟨4, 4⟩) (some ⟨0, 1/2⟩) rot zoom q =
        .error .invalidState) := by
  constructor
  · intro W H
    simp [sourceRectangles]
  · exact generate_deg0_error

/-- C7 (amended): with a present image, the exporter raises the
invalid-argument error iff the quadrant index is null, negative, or greater
than 3; in particular, for every index in {0,1,2,3} no invalid-argument
failure occurs. -/
theorem export_invalid_iff (resample : Resample) (img : Image) (mp : Option Midpoint)
    (rot zoom : ℚ) (qi : Option ℚ) :
    (exportHighResImage resample (some img) mp rot zoom qi = .error .invalidParams ↔
      qi = none ∨ ∃ q, qi = some q ∧ (q < 0 ∨ 3 < q)) ∧
    (∀ q : ℚ, (q = 0 ∨ q = 1 ∨ q = 2 ∨ q = 3) →
      exportHighResImage resample (some img) mp rot zoom (some q) ≠ .error .invalidParams) := by
  have main : ∀ q : ℚ, ¬(q < 0 ∨ 3 < q) →
      exportHighResImage resample (some img) mp rot zoom (some q) ≠ .error .invalidParams := by
    intro q hq
    simp only [exportHighResImage, if_neg hq]
    cases hgen : generateSymmetries resample (some img) mp rot zoom qualityHighRes with
    | error e => simp
    | ok pats =>
      cases hidx : jsIndex pats q with
      | none => simp [hidx]
      | some p =>
        by_cases hz : p.width = 0 ∨ p.height = 0
        · simp [hidx, hz]
        · simp [hidx, hz]
  refine ⟨⟨?_, ?_⟩, ?_⟩
  · intro h
    cases qi with
    | none => exact Or.inl rfl
    | some q =>
      by_cases hq : q < 0 ∨ 3 < q
      · exact Or.inr ⟨q, rfl, hq⟩
      · exact absurd h (main q hq)
  · intro h
    rcases h with rfl | ⟨q, rfl, hq⟩
    · rfl
    · simp [exportHighResImage, hq]
  · intro q hq
    apply main
    rcases hq with rfl | rfl | rfl | rfl <;> norm_num

/-- Witness for C7 at index 2 with a present 4×4 image. -/
theorem export_invalid_iff_witness :
    ((2:ℚ) = 0 ∨ (2:ℚ) = 1 ∨ (2:ℚ) = 2 ∨ (2:ℚ) = 3) ∧
    exportHighResImage constResample (some ⟨4, 4⟩) (some ⟨1/2, 1/2⟩) 0 1 (some 2) ≠
      .error .invalidParams :=
  ⟨by norm_num,
   (export_invalid_iff constResample ⟨4, 4⟩ (some ⟨1/2, 1/2⟩) 0 1 (some 2)).2 2 (by norm_num)⟩

/-- C7 counterexample: with a missing image, the exporter raises the
invalid-argument error even though quadrant index 2 lies in {0,1,2,3}, so the
claimed equivalence between that error and an out-of-range index fails. -/
theorem export_invalid_without_image :
    exportHighResImage constResample none (some ⟨1/2, 1/2⟩) 0 1 (some 2) =
      .error .invalidParams ∧
    ((2:ℚ) = 0 ∨ (2:ℚ) = 1 ∨ (2:ℚ) = 2 ∨ (2:ℚ) = 3) :=
  ⟨rfl, by norm_num⟩

theorem range_map_getD (N : ℕ) (f : ℕ → ℕ) (i : ℕ) (hi : i < N) :
    ((List.range N).map f).getD i 0 = f i := by
  rw [List.getD_eq_getElem?_getD, List.getElem?_map, List.getElem?_range hi]
  rfl

theorem bytes_decode_encode (b : RasterBuffer) :
    (decodePNG (encodePNG b)).bytes = b.bytes := by
  show (List.range (b.height * b.width * 4)).map (decodePNG (encodePNG b)).byteAt =
    (List.range (b.height * b.width * 4)).map b.byteAt
  apply List.map_congr_left
  intro i hi
  have hiN : i < b.height * b.width * 4 := List.mem_range.mp hi
  have hgetD : (RasterBuffer.bytes b).getD i 0 = b.byteAt i := by
    rw [RasterBuffer.bytes]
    exact range_map_getD _ _ _ hiN
  have hbase : i / 4 / b.width * b.width + i / 4 % b.width = i / 4 := by
    rw [Nat.mul_comm]
    exact Nat.div_add_mod _ _
  show Color.channel
      (colorFromBytes (RasterBuffer.bytes b) b.width (i / 4 % b.width) (i / 4 / b.width))
      (i % 4) = b.byteAt i
  rw [colorFromBytes, hbase, Color.channel]
  split_ifs with h0 h1 h2
  · show (RasterBuffer.bytes b).getD (i / 4 * 4) 0 = b.byteAt i
    rw [show i / 4 * 4 = i by omega]
    exact hgetD
  · show (RasterBuffer.bytes b).getD (i / 4 * 4 + 1) 0 = b.byteAt i
    rw [show i / 4 * 4 + 1 = i by omega]
    exact hgetD
  · show (RasterBuffer.bytes b).getD (i / 4 * 4 + 2) 0 = b.byteAt i
    rw [show i / 4 * 4 + 2 = i by omega]
    exact hgetD
  · have h3 : i % 4 = 3 := by omega
    show (RasterBuffer.bytes b).getD (i / 4 * 4 + 3) 0 = b.byteAt i
    rw [show i / 4 * 4 + 3 = i by omega]
    exact hgetD

theorem bytes_drawScaled_self {p : RasterBuffer} {W H : ℕ}
    (hw : p.width = W) (hh : p.height = H) :
    (drawScaled p W H).bytes = p.bytes := by
  subst hw hh
  show (List.range (p.height * p.width * 4)).map (drawScaled p p.width p.height).byteAt =
    (List.range (p.height * p.width * 4)).map p.byteAt
  apply List.map_congr_left
  intro i hi
  have hiN : i < p.height * p.width * 4 := List.mem_range.mp hi
  have hW : 0 < p.width := by
    rcases Nat.eq_zero_or_pos p.width with h | h
    · rw [h] at hiN; omega
    · exact h
  have hH : 0 < p.height := by
    rcases Nat.eq_zero_or_pos p.height with h | h
    · rw [h] at hiN; omega
    · exact h
  simp only [RasterBuffer.byteAt, drawScaled]
  rw [Nat.mul_div_cancel _ hW, Nat.mul_div_cancel _ hH]

theorem flipTile_dims (t : RasterBuffer) (i : ℕ) :
    (flipTile t i).width = t.width ∧ (flipTile t i).height = t.height := by
  unfold flipTile
  split_ifs <;> exact ⟨rfl, rfl⟩

theorem createPattern_ok {c : RasterBuffer} {r : SourceRect} {W H i : ℕ}
    (hc : ¬(c.width = 0 ∨ c.height = 0))
    (ht : ¬(canvasDim r.width = 0 ∨ canvasDim r.height = 0))
    (hWH : ¬(W = 0 ∨ H = 0)) :
    createPatternFromSource c r W H i =
      .ok (composePattern (normalizeQuadrant c r i) W H) := by
  have h2 : ¬(i ≠ 0 ∧ ((extractQuadrant c r).width = 0 ∨ (extractQuadrant c r).height = 0)) :=
    fun hcon => ht hcon.2
  have h3 : ¬((flipTile (extractQuadrant c r) i).width = 0 ∨
      (flipTile (extractQuadrant c r) i).height = 0) := by
    rw [(flipTile_dims _ _).1, (flipTile_dims _ _).2]
    exact ht
  simp only [createPatternFromSource]
  rw [if_neg hc, if_neg h2, if_neg h3, if_neg hWH]
  rfl

theorem canvasDim_zero : canvasDim 0 = 0 := by
  simp [canvasDim]

theorem generate_highres_ok (resample : Resample) (img : Image) (mp : Midpoint)
    (rot zoom : ℚ)
    (h1 : canvasDim (mp.x * img.width) ≠ 0)
    (h2 : canvasDim ((img.width : ℚ) - mp.x * img.width) ≠ 0)
    (h3 : canvasDim (mp.y * img.height) ≠ 0)
    (h4 : canvasDim ((img.height : ℚ) - mp.y * img.height) ≠ 0) :
    generateSymmetries resample (some img) (some mp) rot zoom qualityHighRes =
      .ok ((sourceRectangles img.width img.height mp).enum.map fun p =>
        composePattern
          (normalizeQuadrant (preprocessCanvas resample img rot zoom img.width img.height)
            p.2 p.1) img.width img.height) := by
  have how : img.width ≠ 0 := by
    intro h
    apply h1
    rw [h]
    simp [canvasDim_zero]
  have hoh : img.height ≠ 0 := by
    intro h
    apply h3
    rw [h]
    simp [canvasDim_zero]
  have hcv : ¬((preprocessCanvas resample img rot zoom img.width img.height).width = 0 ∨
      (preprocessCanvas resample img rot zoom img.width img.height).height = 0) := by
    simp [preprocessCanvas]
    exact ⟨how, hoh⟩
  have hWH : ¬(img.width = 0 ∨ img.height = 0) := by
    simp
    exact ⟨how, hoh⟩
  have htTL : ¬(canvasDim (mp.x * img.width) = 0 ∨ canvasDim (mp.y * img.height) = 0) := by
    simp
    exact ⟨h1, h3⟩
  have htTR : ¬(canvasDim ((img.width : ℚ) - mp.x * img.width) = 0 ∨
      canvasDim (mp.y * img.height) = 0) := by
    simp
    exact ⟨h2, h3⟩
  have htBL : ¬(canvasDim (mp.x * img.width) = 0 ∨
      canvasDim ((img.height : ℚ) - mp.y * img.height) = 0) := by
    simp
    exact ⟨h1, h4⟩
  have htBR : ¬(canvasDim ((img.width : ℚ) - mp.x * img.width) = 0 ∨
      canvasDim ((img.height : ℚ) - mp.y * img.height) = 0) := by
    simp
    exact ⟨h2, h4⟩
  have hwd : workingDims img.width img.height qualityHighRes = (img.width, img.height) :=
    workingDims_of_ne (by decide) _ _
  simp only [generateSymmetries, hwd]
  simp only [sourceRectangles, List.enum, List.enumFrom, List.mapM_cons, List.mapM_nil]
  rw [createPattern_ok hcv htTL hWH, createPattern_ok hcv htTR hWH,
    createPattern_ok hcv htBL hWH, createPattern_ok hcv htBR hWH]
  rfl

/-- C5 (amended): for a present image and midpoint whose four quadrant tiles
are each at least one pixel in both dimensions, exporting quadrant index 2
(bottom-left) and decoding the resulting lossless byte stream reproduces the
buffer at index 2 of the HighRes pipeline exactly (same dimensions, identical
bytes). -/
theorem export_roundtrip_index2 (resample : Resample) (img : Image) (mp : Midpoint)
    (rot zoom : ℚ)
    (h1 : canvasDim (mp.x * img.width) ≠ 0)
    (h2 : canvasDim ((img.width : ℚ) - mp.x * img.width) ≠ 0)
    (h3 : canvasDim (mp.y * img.height) ≠ 0)
    (h4 : canvasDim ((img.height : ℚ) - mp.y * img.height) ≠ 0) :
    ∃ (blob : Blob) (pats : List RasterBuffer) (p2 : RasterBuffer),
      exportHighResImage resample (some img) (some mp) rot zoom (some 2) = .ok blob ∧
      generateSymmetries resample (some img) (some mp) rot zoom qualityHighRes = .ok pats ∧
      pats[2]? = some p2 ∧
      (decodePNG blob).width = p2.width ∧
      (decodePNG blob).height = p2.height ∧
      (decodePNG blob).bytes = p2.bytes := by
  have how : img.width ≠ 0 := by
    intro h
    apply h1
    rw [h]
    simp [canvasDim_zero]
  have hoh : img.height ≠ 0 := by
    intro h
    apply h3
    rw [h]
    simp [canvasDim_zero]
  have hgen := generate_highres_ok resample img mp rot zoom h1 h2 h3 h4
  refine ⟨encodePNG (drawScaled
      (composePattern
        (normalizeQuadrant (preprocessCanvas resample img rot zoom img.width img.height)
          ((sourceRectangles img.width img.height mp).get ⟨2, by simp [sourceRectangles]⟩) 2)
        img.width img.height) img.width img.height),
    _, _, ?_, hgen, rfl, rfl, rfl, ?_⟩
  · have hjs : jsIndex ((sourceRectangles img.width img.height mp).enum.map fun p =>
        composePattern
          (normalizeQuadrant (preprocessCanvas resample img rot zoom img.width img.height)
            p.2 p.1) img.width img.height) 2 =
        some (composePattern
          (normalizeQuadrant (preprocessCanvas resample img rot zoom img.width img.height)
            ((sourceRectangles img.width img.height mp).get ⟨2, by simp [sourceRectangles]⟩) 2)
          img.width img.height) := rfl
    have hq2 : ¬((2 : ℚ) < 0 ∨ (3 : ℚ) < 2) := by norm_num
    have hdim : ¬((composePattern
          (normalizeQuadrant (preprocessCanvas resample img rot zoom img.width img.height)
            ((sourceRectangles img.width img.height mp).get ⟨2, by simp [sourceRectangles]⟩) 2)
          img.width img.height).width = 0 ∨
        (composePattern
          (normalizeQuadrant (preprocessCanvas resample img rot zoom img.width img.height)
            ((sourceRectangles img.width img.height mp).get ⟨2, by simp [sourceRectangles]⟩) 2)
          img.width img.height).height = 0) := by
      show ¬(img.width = 0 ∨ img.height = 0)
      simp
      exact ⟨how, hoh⟩
    simp only [exportHighResImage, hgen, hjs]
    rw [if_neg hq2, if_neg hdim]
  · calc (decodePNG (encodePNG (drawScaled _ img.width img.height))).bytes
        = (drawScaled _ img.width img.height).bytes := bytes_decode_encode _
      _ = _ := bytes_drawScaled_self rfl rfl

/-- Witness for C5 at a 2×2 image with the centered midpoint. -/
theorem export_roundtrip_index2_witness :
    (canvasDim ((⟨1/2, 1/2⟩ : Midpoint).x * (⟨2, 2⟩ : Image).width) ≠ 0 ∧
     canvasDim (((⟨2, 2⟩ : Image).width : ℚ) - (⟨1/2, 1/2⟩ : Midpoint).x * (⟨2, 2⟩ : Image).width) ≠ 0 ∧
     canvasDim ((⟨1/2, 1/2⟩ : Midpoint).y * (⟨2, 2⟩ : Image).height) ≠ 0 ∧
     canvasDim (((⟨2, 2⟩ : Image).height : ℚ) - (⟨1/2, 1/2⟩ : Midpoint).y * (⟨2, 2⟩ : Image).height) ≠ 0) ∧
    (∃ (blob : Blob) (pats : List RasterBuffer) (p2 : RasterBuffer),
      exportHighResImage constResample (some ⟨2, 2⟩) (some ⟨1/2, 1/2⟩) 0 1 (some 2) = .ok blob ∧
      generateSymmetries constResample (some ⟨2, 2⟩) (some ⟨1/2, 1/2⟩) 0 1 qualityHighRes = .ok pats ∧
      pats[2]? = some p2 ∧
      (decodePNG blob).width = p2.width ∧
      (decodePNG blob).height = p2.height ∧
      (decodePNG blob).bytes = p2.bytes) := by
  have hc1 : canvasDim 1 = 1 := by
    rw [canvasDim, Int.floor_one, Int.emod_eq_of_lt (by norm_num) (by norm_num)]
    rfl
  refine ⟨⟨?_, ?_, ?_, ?_⟩,
    export_roundtrip_index2 constResample ⟨2, 2⟩ ⟨1/2, 1/2⟩ 0 1 ?_ ?_ ?_ ?_⟩ <;>
    norm_num [hc1]

/-- C5 counterexample: at the legal midpoint {x:0, y:1/2} the exporter throws a
propagated InvalidStateError and produces no byte stream at all, so the
claimed universal round-trip fails. -/
theorem export_roundtrip_fails_degenerate :
    exportHighResImage constResample (some ⟨4, 4⟩) (some ⟨0, 1/2⟩) 0 1 (some 2) =
      .error (.dom .invalidState) := by
  simp only [exportHighResImage]
  rw [if_neg (by norm_num), generate_deg0_error]

end Refract
